import Mathlib

/-!
Shallow embedding of the Songdo3DMap preprocessing core
(`Scripts/mesh_generator.py` and `Scripts/chunk_builder.py`) and proofs
about the claims of the natural-language specification.

Numeric model: Python floats are modelled as real numbers (exact
arithmetic); `math.sqrt` is `Real.sqrt`, `math.cos`/`math.radians` are
`Real.cos` and multiplication by `π / 180`.  The triangulator uses only
ring operations and comparisons, so it is stated generically over a
`LinearOrderedCommRing` and can be evaluated exactly on integer inputs.
-/

open scoped Classical

namespace Songdo

/-! ### Triangulator (`mesh_generator.py`, `point_in_triangle` / `triangulate_polygon`) -/

variable {α : Type} [LinearOrderedCommRing α]

/-- `sign` helper inside `point_in_triangle`:
`(p1[0]-p3[0])*(p2[1]-p3[1]) - (p2[0]-p3[0])*(p1[1]-p3[1])`. -/
def sign3 (p1 p2 p3 : α × α) : α :=
  (p1.1 - p3.1) * (p2.2 - p3.2) - (p2.1 - p3.1) * (p1.2 - p3.2)

/-- `point_in_triangle(p, a, b, c)`: signed-area classification,
`not (has_neg and has_pos)` (boundary counts as inside). -/
def point_in_triangle (p a b c : α × α) : Bool :=
  let d1 := sign3 p a b
  let d2 := sign3 p b c
  let d3 := sign3 p c a
  let has_neg := decide (d1 < 0) || decide (d2 < 0) || decide (d3 < 0)
  let has_pos := decide (0 < d1) || decide (0 < d2) || decide (0 < d3)
  !(has_neg && has_pos)

/-- The shoelace sum of `triangulate_polygon`:
`Σ_i points[i][0]*points[j][1] - points[j][0]*points[i][1]` with `j = (i+1) % n`. -/
def signedAreaSum (pts : List (α × α)) : α :=
  (List.range pts.length).foldl
    (fun s i =>
      let p := pts.getD i (0, 0)
      let q := pts.getD ((i + 1) % pts.length) (0, 0)
      s + (p.1 * q.2 - q.1 * p.2)) 0

/-- One candidate test of the ear-search loop body: position `i` of the ring is an
ear iff the cross product at the vertex is strictly negative and no other remaining
ring vertex lies inside the candidate triangle.  `j in (prev, curr, next)` is a
comparison by value, exactly as in the Python source. -/
def isEar (pts : List (α × α)) (ring : List Nat) (i : Nat) : Bool :=
  let m := ring.length
  let pIdx := ring.getD ((i + m - 1) % m) 0
  let cIdx := ring.getD i 0
  let nIdx := ring.getD ((i + 1) % m) 0
  let pp := pts.getD pIdx (0, 0)
  let cp := pts.getD cIdx (0, 0)
  let np := pts.getD nIdx (0, 0)
  let cross := (cp.1 - pp.1) * (np.2 - pp.2) - (cp.2 - pp.2) * (np.1 - pp.1)
  if 0 ≤ cross then false
  else
    ring.all fun j =>
      decide (j = pIdx) || decide (j = cIdx) || decide (j = nIdx) ||
        !point_in_triangle (pts.getD j (0, 0)) pp cp np

/-- `for i in range(len(indices))`: the first ring position that is an ear. -/
def findEar (pts : List (α × α)) (ring : List Nat) : Option Nat :=
  (List.range ring.length).find? fun i => isEar pts ring i

/-- The fan fallback: `for i in range(1, len(indices)-1): [indices[0], indices[i], indices[i+1]]`. -/
def fanIndices (ring : List Nat) : List Nat :=
  (List.range' 1 (ring.length - 2)).flatMap fun i =>
    [ring.getD 0 0, ring.getD i 0, ring.getD (i + 1) 0]

/-- The `while len(indices) > 2` loop of `triangulate_polygon`.  Each iteration
either clips one ear (removing `curr_idx` from the ring by value, as
`indices.remove`) or falls back to the fan and stops.  A fuel argument makes the
recursion structural; `fuel = n` always suffices because every iteration removes
one ring element and the loop stops at ring length 2. -/
def earClip (pts : List (α × α)) : Nat → List Nat → List Nat
  | 0, _ => []
  | fuel + 1, ring =>
    if ring.length ≤ 2 then []
    else
      match findEar pts ring with
      | some i =>
          let m := ring.length
          let pIdx := ring.getD ((i + m - 1) % m) 0
          let cIdx := ring.getD i 0
          let nIdx := ring.getD ((i + 1) % m) 0
          pIdx :: cIdx :: nIdx :: earClip pts fuel (ring.erase cIdx)
      | none => fanIndices ring

/-- `triangulate_polygon(coords)`: returns `[]` for fewer than 3 points; reverses
the working copy when the shoelace sum is positive; ear-clips the ring
`list(range(n))`.  Note that the emitted indices index into the (possibly
reversed) working array `points`, not into the input ordering. -/
def triangulate_polygon (coords : List (α × α)) : List Nat :=
  if coords.length < 3 then []
  else
    let points := if 0 < signedAreaSum coords then coords.reverse else coords
    earClip points coords.length (List.range coords.length)

/-! ### Data model and projection (`mesh_generator.py`) -/

/-- `Vertex`: position, normal, texcoord (eight floats). -/
structure Vertex where
  position : ℝ × ℝ × ℝ
  normal : ℝ × ℝ × ℝ
  texcoord : ℝ × ℝ

/-- `Mesh`: a vertex list and a flat index list. -/
structure Mesh where
  vertices : List Vertex
  indices : List Nat

/-- The origin record (`latitude`, `longitude` keys). -/
structure GeoOrigin where
  latitude : ℝ
  longitude : ℝ

/-- `SONGDO_ORIGIN = {"latitude": 37.355, "longitude": 126.615}`. -/
noncomputable def SONGDO_ORIGIN : GeoOrigin := ⟨37.355, 126.615⟩

/-- `LAT_TO_METERS = 111000.0`. -/
noncomputable def LAT_TO_METERS : ℝ := 111000.0

/-- `LON_TO_METERS = 111000.0 * math.cos(math.radians(37.39))`. -/
noncomputable def LON_TO_METERS : ℝ := 111000.0 * Real.cos (37.39 * Real.pi / 180)

/-- `geo_to_local(lon, lat, origin)`. -/
noncomputable def geo_to_local (lon lat : ℝ) (origin : GeoOrigin) : ℝ × ℝ :=
  ((lon - origin.longitude) * LON_TO_METERS, (lat - origin.latitude) * LAT_TO_METERS)

/-- Project a `(lon, lat)` coordinate list to local meters. -/
noncomputable def projectList (origin : GeoOrigin) (coords : List (ℝ × ℝ)) : List (ℝ × ℝ) :=
  coords.map fun c => geo_to_local c.1 c.2 origin

/-! ### Building mesher (`BuildingMeshGenerator.generate_mesh`) -/

/-- `if len(local_coords) > 1 and local_coords[0] == local_coords[-1]: local_coords[:-1]`. -/
noncomputable def dropClosing (L : List (ℝ × ℝ)) : List (ℝ × ℝ) :=
  if 1 < L.length ∧ L.getD 0 (0, 0) = L.getD (L.length - 1) (0, 0) then L.dropLast else L

/-- The wall-edge length `math.sqrt(dx*dx + dz*dz)` for the edge from polygon
vertex `i` to vertex `(i+1) % n`. -/
noncomputable def wallLen (L : List (ℝ × ℝ)) (i : Nat) : ℝ :=
  let p0 := L.getD i (0, 0)
  let p1 := L.getD ((i + 1) % L.length) (0, 0)
  Real.sqrt ((p1.1 - p0.1) * (p1.1 - p0.1) + (p1.2 - p0.2) * (p1.2 - p0.2))

/-- One iteration of the wall loop (`for i in range(n)`): append four wall
vertices and six indices, or skip the edge entirely when its length is below
`0.01`.  `wall_start` is the current vertex count of the mesh. -/
noncomputable def wallStep (L : List (ℝ × ℝ)) (height : ℝ) (m : Mesh) (i : Nat) : Mesh :=
  let p0 := L.getD i (0, 0)
  let p1 := L.getD ((i + 1) % L.length) (0, 0)
  let len := wallLen L i
  if len < 0.01 then m
  else
    let nx := (p1.2 - p0.2) / len
    let nz := -(p1.1 - p0.1) / len
    let u1 := len / 3
    let ws := m.vertices.length
    { vertices := m.vertices ++
        [⟨(p0.1, 0, p0.2), (nx, 0, nz), (0, 0)⟩,
         ⟨(p1.1, 0, p1.2), (nx, 0, nz), (u1, 0)⟩,
         ⟨(p1.1, height, p1.2), (nx, 0, nz), (u1, height / 3)⟩,
         ⟨(p0.1, height, p0.2), (nx, 0, nz), (0, height / 3)⟩],
      indices := m.indices ++ [ws, ws + 1, ws + 2, ws, ws + 2, ws + 3] }

/-- The roof re-indexing loop `for i in range(0, len(floor_indices), 3)`:
per triple `(a, b, c)` emit `roof_start + a`, `roof_start + c`, `roof_start + b`
(second and third swapped).  The floor index list always has length a multiple
of three, so stepping by three visits exactly `len / 3` triples. -/
def roofReorder (rs : Nat) (fi : List Nat) : List Nat :=
  (List.range (fi.length / 3)).flatMap fun t =>
    [rs + fi.getD (3 * t) 0, rs + fi.getD (3 * t + 2) 0, rs + fi.getD (3 * t + 1) 0]

/-- `BuildingMeshGenerator.generate_mesh(coords, height)`: project, drop a
closing duplicate, return the empty mesh below three vertices, then emit the
floor ring (`y = 0`, normal `(0,-1,0)`, texcoord `(x/10, z/10)`), floor
triangles, roof ring (`y = height`, normal `(0,1,0)`), roof triangles with
swapped winding, and one wall quad per non-degenerate edge. -/
noncomputable def buildingGenerateMesh (origin : GeoOrigin) (coords : List (ℝ × ℝ))
    (height : ℝ) : Mesh :=
  let L := dropClosing (projectList origin coords)
  if L.length < 3 then ⟨[], []⟩
  else
    let floorVerts : List Vertex := L.map fun p => ⟨(p.1, 0, p.2), (0, -1, 0), (p.1 / 10, p.2 / 10)⟩
    let fi := triangulate_polygon L
    let roofVerts : List Vertex := L.map fun p => ⟨(p.1, height, p.2), (0, 1, 0), (p.1 / 10, p.2 / 10)⟩
    let base : Mesh := ⟨floorVerts ++ roofVerts, fi ++ roofReorder L.length fi⟩
    (List.range L.length).foldl (wallStep L height) base

/-! ### Road mesher (`RoadMeshGenerator.generate_mesh`) -/

/-- The per-vertex direction of the road loop: forward difference at the first
vertex, backward difference at the last, the averaged difference
`p[i+1] - p[i-1]` in between. -/
noncomputable def roadTangent (L : List (ℝ × ℝ)) (i : Nat) : ℝ × ℝ :=
  let p := L.getD i (0, 0)
  if i = 0 then
    let q := L.getD 1 (0, 0)
    (q.1 - p.1, q.2 - p.2)
  else if i = L.length - 1 then
    let q := L.getD (i - 1) (0, 0)
    (p.1 - q.1, p.2 - q.2)
  else
    let q0 := L.getD (i - 1) (0, 0)
    let q1 := L.getD (i + 1) (0, 0)
    (q1.1 - q0.1, q1.2 - q0.2)

/-- `math.sqrt(dx*dx + dz*dz)` of the tangent at input vertex `i`. -/
noncomputable def roadTangentLen (L : List (ℝ × ℝ)) (i : Nat) : ℝ :=
  let t := roadTangent L i
  Real.sqrt (t.1 * t.1 + t.2 * t.2)

/-- `math.sqrt((x-prev_x)**2 + (z-prev_z)**2)`: the segment length used to
accumulate the cumulative polyline length. -/
noncomputable def segLen (p q : ℝ × ℝ) : ℝ :=
  Real.sqrt ((q.1 - p.1) ^ 2 + (q.2 - p.2) ^ 2)

/-- The road loop state: emitted vertices, emitted indices, `accumulated_length`. -/
structure RoadState where
  vertices : List Vertex
  indices : List Nat
  acc : ℝ

/-- One iteration (`for i in range(len(local_coords))`) of the road loop.
When the tangent length is below `0.001` the vertex is skipped entirely
(`continue`), in particular neither the accumulated length nor the triangle
indices are touched.  Otherwise the left and right vertices are emitted with
`v = accumulated_length / 10` computed **before** the segment ending at this
vertex is accumulated, and for `i > 0` the two triangles are emitted with
`base = (i - 1) * 2` computed from the input index `i`. -/
noncomputable def roadStep (L : List (ℝ × ℝ)) (halfW : ℝ) (st : RoadState) (i : Nat) :
    RoadState :=
  let p := L.getD i (0, 0)
  let t := roadTangent L i
  let len := roadTangentLen L i
  if len < 0.001 then st
  else
    let dx := t.1 / len
    let dz := t.2 / len
    let px := -dz
    let pz := dx
    let v := st.acc / 10
    let verts := st.vertices ++
      [⟨(p.1 + px * halfW, 0.05, p.2 + pz * halfW), (0, 1, 0), (0, v)⟩,
       ⟨(p.1 - px * halfW, 0.05, p.2 - pz * halfW), (0, 1, 0), (1, v)⟩]
    let acc := if 0 < i then st.acc + segLen (L.getD (i - 1) (0, 0)) p else st.acc
    let idxs := if 0 < i then
        st.indices ++ [2 * (i - 1), 2 * (i - 1) + 1, 2 * (i - 1) + 2,
                       2 * (i - 1) + 1, 2 * (i - 1) + 3, 2 * (i - 1) + 2]
      else st.indices
    ⟨verts, idxs, acc⟩

/-- `RoadMeshGenerator.generate_mesh(coords, width)`. -/
noncomputable def roadGenerateMesh (origin : GeoOrigin) (coords : List (ℝ × ℝ))
    (width : ℝ) : Mesh :=
  let L := projectList origin coords
  if L.length < 2 then ⟨[], []⟩
  else
    let st := (List.range L.length).foldl (roadStep L (width / 2)) ⟨[], [], 0⟩
    ⟨st.vertices, st.indices⟩

/-! ### Chunk builder (`chunk_builder.py`) -/

/-- A building GeoJSON feature as read by `assign_to_chunks`:
`geometry.coordinates` is a list of rings (only `[0]` is used), the
optional properties are read with `props.get(key, default)`. -/
structure BuildingFeature where
  fid : Option String
  coordinates : List (List (ℝ × ℝ))
  height : Option ℝ
  building_type : Option String

/-- A road GeoJSON feature: `geometry.coordinates` is the point list; the
feature may carry a `lanes` attribute (which `assign_to_chunks` never copies
into its per-chunk road dictionary). -/
structure RoadFeature where
  fid : Option String
  coordinates : List (ℝ × ℝ)
  highway_type : Option String
  width : Option ℝ
  lanes : Option Nat

/-- The per-chunk building dictionary built by `assign_to_chunks`. -/
structure BuildingEntry where
  fid : Option String
  coords : List (ℝ × ℝ)
  local_coords : List (ℝ × ℝ)
  height : ℝ
  building_type : String
  center : ℝ × ℝ

/-- The per-chunk road dictionary built by `assign_to_chunks`.  The Python
dictionary has exactly the keys `id`, `coords`, `local_coords`,
`highway_type`, `width`; the `lanes` field models the possible presence of a
`lanes` key at the serializer's `road.get("lanes", 2)` access (it is always
absent, i.e. `none`, in entries the partitioner builds). -/
structure RoadEntry where
  fid : Option String
  coords : List (ℝ × ℝ)
  local_coords : List (ℝ × ℝ)
  highway_type : String
  width : ℝ
  lanes : Option Nat

/-- `ChunkBounds` for chunk index `(x, y)` with edge length `S`. -/
structure ChunkBounds where
  x : ℤ
  y : ℤ
  min_x : ℝ
  min_z : ℝ
  max_x : ℝ
  max_z : ℝ

/-- `ChunkData`. -/
structure ChunkData where
  bounds : ChunkBounds
  buildings : List BuildingEntry
  roads : List RoadEntry
  building_meshes : List Mesh
  road_meshes : List Mesh

/-- `ChunkBuilder.get_chunk_bounds`. -/
noncomputable def get_chunk_bounds (S : ℝ) (κ : ℤ × ℤ) : ChunkBounds :=
  ⟨κ.1, κ.2, κ.1 * S, κ.2 * S, κ.1 * S + S, κ.2 * S + S⟩

/-- `ChunkBuilder.get_chunk_for_point`: `int(x // chunk_size)` is the floor of
`x / S` (Python float floor-division, then exact integer conversion). -/
noncomputable def get_chunk_for_point (S : ℝ) (x z : ℝ) : ℤ × ℤ :=
  (Int.floor (x / S), Int.floor (z / S))

/-- The `chunks` dictionary, modelled by its key-to-value content: a total map
from chunk index to `ChunkData`, every not-yet-touched key holding the fresh
empty `ChunkData` the source creates on first access. -/
def ChunkMap : Type := (ℤ × ℤ) → ChunkData

/-- An empty chunk as created by `assign_to_chunks` on first touch. -/
noncomputable def emptyChunk (S : ℝ) (κ : ℤ × ℤ) : ChunkData :=
  ⟨get_chunk_bounds S κ, [], [], [], []⟩

/-- Python error outcomes of the partitioning loop: an uncaught exception
aborts the run. -/
inductive PyErr
  | indexErr
  | zeroDiv
  deriving DecidableEq

/-- The arithmetic-mean center of the projected ring:
`sum(c[k] for c in local_coords) / len(local_coords)`. -/
noncomputable def ringCenter (L : List (ℝ × ℝ)) : ℝ × ℝ :=
  ((L.map Prod.fst).sum / (L.length : ℝ), (L.map Prod.snd).sum / (L.length : ℝ))

/-- The building loop of `ChunkBuilder.assign_to_chunks`.  Each feature reads
`geometry.coordinates[0]` (an `IndexError` on an empty coordinate list aborts),
projects the ring, computes the mean center (a `ZeroDivisionError` on an empty
ring aborts), and appends one entry dictionary to the single chunk containing
the center. -/
noncomputable def assignBuildingsLoop (o : GeoOrigin) (S : ℝ) :
    List BuildingFeature → ChunkMap → Except PyErr ChunkMap
  | [], m => .ok m
  | f :: rest, m =>
    match f.coordinates.head? with
    | none => .error .indexErr
    | some ring =>
      let L := projectList o ring
      if L.length = 0 then .error .zeroDiv
      else
        let c := ringCenter L
        let κ := get_chunk_for_point S c.1 c.2
        let e : BuildingEntry :=
          ⟨f.fid, ring, L, f.height.getD 10.0, f.building_type.getD "yes", c⟩
        let cd := m κ
        assignBuildingsLoop o S rest fun κ' =>
          if κ' = κ then { cd with buildings := cd.buildings ++ [e] } else m κ'

/-- The road loop of `ChunkBuilder.assign_to_chunks`: each projected vertex
determines a chunk, and the road entry is appended once to every distinct
chunk visited (the `visited_chunks` set is modelled by membership in the list
of per-vertex chunk indices). -/
noncomputable def assignRoadsLoop (o : GeoOrigin) (S : ℝ) :
    List RoadFeature → ChunkMap → ChunkMap
  | [], m => m
  | f :: rest, m =>
    let L := projectList o f.coordinates
    let κs := L.map fun p => get_chunk_for_point S p.1 p.2
    let e : RoadEntry :=
      ⟨f.fid, f.coordinates, L, f.highway_type.getD "residential", f.width.getD 6.0, none⟩
    assignRoadsLoop o S rest fun κ' =>
      if κ' ∈ κs then { m κ' with roads := (m κ').roads ++ [e] } else m κ'

/-- `ChunkBuilder.assign_to_chunks(buildings_geojson, roads_geojson)`:
all buildings first, then all roads. -/
noncomputable def assign_to_chunks (o : GeoOrigin) (S : ℝ) (bs : List BuildingFeature)
    (rs : List RoadFeature) : Except PyErr ChunkMap :=
  (assignBuildingsLoop o S bs fun κ => emptyChunk S κ).map (assignRoadsLoop o S rs)

/-- The `if len(mesh.vertices) > 0: append` statement of
`generate_chunk_meshes`. -/
def appendIfNonempty (acc : List Mesh) (mesh : Mesh) : List Mesh :=
  if 0 < mesh.vertices.length then acc ++ [mesh] else acc

/-- `ChunkBuilder.generate_chunk_meshes(chunk_data)`: per building (in list
order) generate the mesh and append it only when it has at least one vertex;
likewise for roads. -/
noncomputable def generate_chunk_meshes (o : GeoOrigin) (cd : ChunkData) : ChunkData :=
  let bms := cd.buildings.foldl
    (fun acc b => appendIfNonempty acc (buildingGenerateMesh o b.coords b.height))
    cd.building_meshes
  let rms := cd.roads.foldl
    (fun acc r => appendIfNonempty acc (roadGenerateMesh o r.coords r.width))
    cd.road_meshes
  { cd with building_meshes := bms, road_meshes := rms }

/-! ### Binary serialization (`ChunkBuilder.write_chunk_binary`)

Bytes are modelled symbolically: integers as concrete byte values, each of the
four bytes of an IEEE-754 float32 as an opaque token carrying the real value
and the byte position.  This captures layout (offsets, sizes, padding) and all
integer-valued bytes exactly, without committing to a float bit-level model. -/

/-- One serialized byte: a known integer byte, or byte `i` of the float32
encoding of `x`. -/
inductive SByte
  | k : Nat → SByte
  | f32 : ℝ → Fin 4 → SByte

/-- A `B` (uint8) field. -/
def u8 (v : Nat) : List SByte := [.k (v % 256)]

/-- An `H` (uint16, little-endian) field. -/
def u16le (v : Nat) : List SByte := [.k (v % 256), .k (v / 256 % 256)]

/-- An `I` (uint32, little-endian) field. -/
def u32le (v : Nat) : List SByte :=
  [.k (v % 256), .k (v / 256 % 256), .k (v / 65536 % 256), .k (v / 16777216 % 256)]

/-- An `f` (float32) field, as four symbolic bytes. -/
def f32le (x : ℝ) : List SByte := [.f32 x 0, .f32 x 1, .f32 x 2, .f32 x 3]

/-- The `highway_types` dictionary lookup with default `3`. -/
def roadTypeCode (s : String) : Nat :=
  if s = "motorway" then 0
  else if s = "trunk" then 0
  else if s = "primary" then 1
  else if s = "secondary" then 2
  else if s = "tertiary" then 2
  else if s = "residential" then 3
  else if s = "service" then 3
  else if s = "footway" then 4
  else if s = "cycleway" then 4
  else if s = "path" then 4
  else 3

/-- `struct.pack("BBfI", ...)` in CPython **native** mode (no `<` prefix):
`B`, `B`, then two padding bytes inserted to align `f` to 4 bytes, the float,
and the uint32 — 12 bytes in total, not 10. -/
def packBBfI (a b : Nat) (w : ℝ) (c : Nat) : List SByte :=
  u8 a ++ u8 b ++ [.k 0, .k 0] ++ f32le w ++ u32le c

/-- `Vertex.to_bytes`: `struct.pack("8f", ...)`, 32 bytes. -/
def vertexBytes (v : Vertex) : List SByte :=
  f32le v.position.1 ++ f32le v.position.2.1 ++ f32le v.position.2.2 ++
  f32le v.normal.1 ++ f32le v.normal.2.1 ++ f32le v.normal.2.2 ++
  f32le v.texcoord.1 ++ f32le v.texcoord.2

/-- The mesh payload written after each instance/metadata block:
`struct.pack("II", len(vertices), len(indices))`, the vertex records, the
uint32 indices. -/
def meshBytes (m : Mesh) : List SByte :=
  u32le m.vertices.length ++ u32le m.indices.length ++
  m.vertices.flatMap vertexBytes ++ m.indices.flatMap u32le

/-- One road record of the road section: the `"BBfI"` metadata
(`road_type`, `lanes = road.get("lanes", 2)`, `width`,
`point_count = len(local_coords)`), six explicit zero padding bytes, then the
mesh payload. -/
def roadRecordBytes (e : RoadEntry) (m : Mesh) : List SByte :=
  packBBfI (roadTypeCode e.highway_type) (e.lanes.getD 2) e.width e.local_coords.length ++
  [.k 0, .k 0, .k 0, .k 0, .k 0, .k 0] ++ meshBytes m

/-- The road section of `write_chunk_binary`: one record per generated road
mesh, paired positionally with `chunk_data.roads[i]`. -/
noncomputable def roadSectionBytes (cd : ChunkData) : List SByte :=
  (List.range cd.road_meshes.length).flatMap fun i =>
    roadRecordBytes (cd.roads.getD i ⟨none, [], [], "", 0, none⟩)
      (cd.road_meshes.getD i ⟨[], []⟩)

/-- The number of walls the building mesher emits: edges of the (deduplicated)
polygon ring whose length is not below `0.01` meters. -/
noncomputable def wallCount (L : List (ℝ × ℝ)) : Nat :=
  ((List.range L.length).filter fun i => !decide (wallLen L i < 0.01)).length

/-- The cumulative Euclidean length of a point list (sum of consecutive
segment lengths). -/
noncomputable def pathLen : List (ℝ × ℝ) → ℝ
  | p :: q :: rest => segLen p q + pathLen (q :: rest)
  | _ => 0

/-! ### Helper lemmas: triangulation output size -/

theorem flatMap_three_length {β : Type} (l : List β) (f g h : β → Nat) :
    (l.flatMap fun i => [f i, g i, h i]).length = 3 * l.length := by
  induction l with
  | nil => simp
  | cons a t ih => simp [List.flatMap_cons, ih]; ring

theorem fanIndices_length (ring : List Nat) :
    (fanIndices ring).length = 3 * (ring.length - 2) := by
  unfold fanIndices
  rw [flatMap_three_length]
  simp

theorem earClip_length (pts : List (α × α)) (fuel : Nat) :
    ∀ ring : List Nat, 2 ≤ ring.length → ring.length ≤ fuel + 2 →
      (earClip pts fuel ring).length = 3 * (ring.length - 2) := by
  induction fuel with
  | zero =>
    intro ring h2 hf
    have h22 : ring.length = 2 := le_antisymm hf h2
    simp [earClip, h22]
  | succ n ih =>
    intro ring h2 hf
    rw [earClip]
    by_cases hle : ring.length ≤ 2
    · have h22 : ring.length = 2 := le_antisymm hle h2
      simp [hle, h22]
    · push_neg at hle
      rw [if_neg (by omega)]
      cases hfe : findEar pts ring with
      | none => simp [fanIndices_length]
      | some i =>
        have hi : i < ring.length := by
          have hmem := List.mem_of_find?_eq_some hfe
          simpa using hmem
        have hcmem : ring.getD i 0 ∈ ring := by
          rw [List.getD_eq_getElem ring 0 hi]
          exact List.getElem_mem hi
        have herase : (ring.erase (ring.getD i 0)).length = ring.length - 1 := by
          have := List.length_erase_add_one hcmem; omega
        have hrec := ih (ring.erase (ring.getD i 0))
          (by omega) (by omega)
        simp only [List.length_cons, hrec, herase]
        omega

theorem triangulate_polygon_length (coords : List (α × α)) (h3 : 3 ≤ coords.length) :
    (triangulate_polygon coords).length = 3 * (coords.length - 2) := by
  unfold triangulate_polygon
  rw [if_neg (by omega)]
  have := earClip_length
    (if 0 < signedAreaSum coords then coords.reverse else coords)
    coords.length (List.range coords.length) (by simp; omega) (by simp)
  simpa using this

/-! ### Helper lemmas: building mesh size -/

theorem roofReorder_length (rs : Nat) (fi : List Nat) :
    (roofReorder rs fi).length = 3 * (fi.length / 3) := by
  unfold roofReorder
  rw [flatMap_three_length]
  simp

theorem wallFold_counts (L : List (ℝ × ℝ)) (h : ℝ) (l : List Nat) :
    ∀ m : Mesh,
      ((l.foldl (wallStep L h) m).vertices.length
        = m.vertices.length + 4 * (l.filter fun i => !decide (wallLen L i < 0.01)).length) ∧
      ((l.foldl (wallStep L h) m).indices.length
        = m.indices.length + 6 * (l.filter fun i => !decide (wallLen L i < 0.01)).length) := by
  induction l with
  | nil => intro m; simp
  | cons a t ih =>
    intro m
    by_cases hc : wallLen L a < 0.01
    · have hstep : wallStep L h m a = m := by
        unfold wallStep
        simp [hc]
      simp only [List.foldl_cons, hstep, List.filter_cons]
      simp [hc, ih m]
    · have hstep : (wallStep L h m a).vertices.length = m.vertices.length + 4 ∧
          (wallStep L h m a).indices.length = m.indices.length + 6 := by
        unfold wallStep
        rw [if_neg hc]
        simp
      obtain ⟨hv, hx⟩ := hstep
      simp only [List.foldl_cons, List.filter_cons]
      have := ih (wallStep L h m a)
      simp [hc, this.1, this.2, hv, hx]
      constructor <;> ring

theorem buildingGenerateMesh_counts (o : GeoOrigin) (coords : List (ℝ × ℝ)) (ht : ℝ)
    (h3 : 3 ≤ (dropClosing (projectList o coords)).length) :
    (buildingGenerateMesh o coords ht).vertices.length
        = 2 * (dropClosing (projectList o coords)).length
          + 4 * wallCount (dropClosing (projectList o coords)) ∧
    (buildingGenerateMesh o coords ht).indices.length
        = 6 * ((dropClosing (projectList o coords)).length - 2)
          + 6 * wallCount (dropClosing (projectList o coords)) := by
  set L := dropClosing (projectList o coords) with hL
  unfold buildingGenerateMesh
  rw [← hL]
  rw [if_neg (by omega)]
  have hfi : (triangulate_polygon L).length = 3 * (L.length - 2) :=
    triangulate_polygon_length L h3
  have hwf := wallFold_counts L ht (List.range L.length)
    ⟨(L.map fun p => ⟨(p.1, 0, p.2), (0, -1, 0), (p.1 / 10, p.2 / 10)⟩) ++
       (L.map fun p => ⟨(p.1, ht, p.2), (0, 1, 0), (p.1 / 10, p.2 / 10)⟩),
     triangulate_polygon L ++ roofReorder L.length (triangulate_polygon L)⟩
  rw [hwf.1, hwf.2]
  simp only [List.length_append, List.length_map, roofReorder_length, hfi]
  unfold wallCount
  constructor
  · omega
  · have : 3 * (L.length - 2) / 3 = L.length - 2 := by omega
    rw [this]
    omega

/-! ### Concrete-input facts shared by the witnesses -/

theorem LON_TO_METERS_pos : 0 < LON_TO_METERS := by
  unfold LON_TO_METERS
  have hpi := Real.pi_pos
  have hcos : 0 < Real.cos (37.39 * Real.pi / 180) := by
    apply Real.cos_pos_of_mem_Ioo
    constructor
    · nlinarith
    · nlinarith
  nlinarith

theorem sqrt_100 : Real.sqrt 100 = 10 := by
  rw [show (100 : ℝ) = 10 ^ 2 by norm_num, Real.sqrt_sq (by norm_num)]

theorem sqrt_12321 : Real.sqrt 12321 = 111 := by
  rw [show (12321 : ℝ) = 111 ^ 2 by norm_num, Real.sqrt_sq (by norm_num)]

/-- A 10 m × 10 m square footprint at the origin, in geographic coordinates
(open ring: the closing vertex is omitted). -/
noncomputable def squareCoords : List (ℝ × ℝ) :=
  [(126.615, 37.355),
   (126.615 + 10 / LON_TO_METERS, 37.355),
   (126.615 + 10 / LON_TO_METERS, 37.355 + 10 / 111000),
   (126.615, 37.355 + 10 / 111000)]

theorem square_proj :
    projectList SONGDO_ORIGIN squareCoords = [(0, 0), (10, 0), (10, 10), (0, 10)] := by
  have hK := LON_TO_METERS_pos.ne'
  unfold projectList squareCoords geo_to_local SONGDO_ORIGIN LAT_TO_METERS
  simp only [List.map_cons, List.map_nil]
  norm_num
  field_simp

theorem square_L :
    dropClosing (projectList SONGDO_ORIGIN squareCoords) = [(0, 0), (10, 0), (10, 10), (0, 10)] := by
  rw [square_proj]
  unfold dropClosing
  rw [if_neg]
  intro hcl
  have h2 := congrArg Prod.snd hcl.2
  norm_num [List.getD] at h2

theorem square_wallCount : wallCount [((0 : ℝ), (0 : ℝ)), (10, 0), (10, 10), (0, 10)] = 4 := by
  have hlen : ∀ i ∈ [0, 1, 2, 3],
      wallLen [((0 : ℝ), (0 : ℝ)), (10, 0), (10, 10), (0, 10)] i = 10 := by
    intro i hi
    fin_cases hi <;>
      · unfold wallLen
        norm_num [List.getD]
        exact sqrt_100
  unfold wallCount
  simp only [List.length_cons, List.length_nil]
  rw [show List.range 4 = [0, 1, 2, 3] by decide]
  have hfeq : List.filter
      (fun i => !decide (wallLen [((0 : ℝ), (0 : ℝ)), (10, 0), (10, 10), (0, 10)] i < 0.01))
      [0, 1, 2, 3] = [0, 1, 2, 3] := by
    apply List.filter_eq_self.mpr
    intro a ha
    rw [hlen a ha, decide_eq_false (by norm_num : ¬ ((10 : ℝ) < 0.01))]
    rfl
  rw [hfeq]
  rfl

/-! ### Claim C6 -/

/-- Claim C6: for every closed polygon whose projection has `n ≥ 3` vertices
after dropping a trailing duplicate of the first, the building mesh has exactly
`2·n + 4·w` vertices and `6·(n−2) + 6·w` indices, where `w` is the number of
polygon edges with length at least `0.01` m. -/
theorem C6_building_mesh_size (o : GeoOrigin) (coords : List (ℝ × ℝ)) (ht : ℝ)
    (h3 : 3 ≤ (dropClosing (projectList o coords)).length) :
    (buildingGenerateMesh o coords ht).vertices.length
        = 2 * (dropClosing (projectList o coords)).length
          + 4 * wallCount (dropClosing (projectList o coords)) ∧
    (buildingGenerateMesh o coords ht).indices.length
        = 6 * ((dropClosing (projectList o coords)).length - 2)
          + 6 * wallCount (dropClosing (projectList o coords)) :=
  buildingGenerateMesh_counts o coords ht h3

/-- Witness for C6: the 10 m × 10 m square with height 5 satisfies the
hypothesis and yields 24 vertices and 36 indices. -/
theorem C6_building_mesh_size_witness :
    3 ≤ (dropClosing (projectList SONGDO_ORIGIN squareCoords)).length ∧
    (buildingGenerateMesh SONGDO_ORIGIN squareCoords 5).vertices.length = 24 ∧
    (buildingGenerateMesh SONGDO_ORIGIN squareCoords 5).indices.length = 36 := by
  have h3 : 3 ≤ (dropClosing (projectList SONGDO_ORIGIN squareCoords)).length := by
    rw [square_L]
    simp
  have hc := C6_building_mesh_size SONGDO_ORIGIN squareCoords 5 h3
  rw [square_L] at hc
  refine ⟨h3, ?_, ?_⟩
  · rw [hc.1, square_wallCount]
    norm_num
  · rw [hc.2, square_wallCount]
    norm_num

/-! ### Claim C8 -/

/-- Claim C8: for every longitude, latitude and origin, the projection returns
`x = (lon − origin.longitude) · 111000 · cos(37.39°)` and
`z = (lat − origin.latitude) · 111000`, the longitude scale being a fixed
constant independent of the point being projected. -/
theorem C8_projection_formula (lon lat : ℝ) (o : GeoOrigin) :
    geo_to_local lon lat o =
      ((lon - o.longitude) * (111000.0 * Real.cos (37.39 * Real.pi / 180)),
       (lat - o.latitude) * 111000.0) := rfl

/-! ### Claim C3 -/

/-- Claim C3 fails on the code: for the polygon
`P0=(0,0), P1=(4,0), P2=(4,4), P3=(3,1)` the shoelace sum is positive, so the
working copy is reversed, and `triangulate_polygon` emits `[0,1,2, 3,0,2]` —
indices into the *reversed* array.  Read against the original input ordering
(as the building mesher does), the first triangle is `(P0, P1, P2)`, which
contains the input vertex `P3` in its interior: it is not the ear that was
clipped, so the emitted indices do not name the same geometric input points. -/
theorem C3_indices_refer_to_reversed_ordering :
    triangulate_polygon ([(0, 0), (4, 0), (4, 4), (3, 1)] : List (ℤ × ℤ)) = [0, 1, 2, 3, 0, 2] ∧
    0 < signedAreaSum ([(0, 0), (4, 0), (4, 4), (3, 1)] : List (ℤ × ℤ)) ∧
    point_in_triangle ((3 : ℤ), 1) (0, 0) (4, 0) (4, 4) = true := by
  decide

/-! ### Claim C2 -/

/-- A concrete road entry (no `lanes` key, `residential`, width 6, two
polyline points) as built by the partitioner. -/
noncomputable def c2entry : RoadEntry :=
  ⟨none, [], [(0, 0), (0, 100)], "residential", 6, none⟩

/-- A concrete road mesh with four vertices and six indices. -/
noncomputable def c2mesh : Mesh :=
  ⟨[⟨(0, 0.05, 0), (0, 1, 0), (0, 0)⟩, ⟨(0, 0.05, 0), (0, 1, 0), (1, 0)⟩,
    ⟨(0, 0.05, 100), (0, 1, 0), (0, 10)⟩, ⟨(0, 0.05, 100), (0, 1, 0), (1, 10)⟩],
   [0, 1, 2, 1, 3, 2]⟩

/-- Claim C2 fails on the code: `struct.pack("BBfI", ...)` without a `<`
prefix packs in CPython *native* mode, which aligns the `f` field to 4 bytes.
The serialized road record therefore has `road_type` at offset 0, `lanes` at
offset 1, two *implicit* padding bytes at offsets 2–3, `width` at offset 4
(not 2), `point_count` at offset 8 (not 6), the six explicit padding bytes at
offsets 12–17, and `vertex_count` at offset 18 (not 16). -/
theorem C2_road_record_is_natively_aligned :
    (roadRecordBytes c2entry c2mesh).take 22 =
      [.k 3, .k 2, .k 0, .k 0,
       .f32 6 0, .f32 6 1, .f32 6 2, .f32 6 3,
       .k 2, .k 0, .k 0, .k 0,
       .k 0, .k 0, .k 0, .k 0, .k 0, .k 0,
       .k 4, .k 0, .k 0, .k 0] := rfl

/-! ### Claim C9 -/

/-- A malformed building feature: its outer ring is empty (fewer than 3
unique vertices). -/
noncomputable def emptyRingFeature : BuildingFeature := ⟨none, [[]], none, none⟩

/-- Claim C9 fails on the code: a building feature with an empty outer ring
makes `assign_to_chunks` divide by `len(local_coords) == 0` when computing the
centroid, raising `ZeroDivisionError` and aborting the whole
partitioning-and-serialization run instead of skipping the feature. -/
theorem C9_malformed_feature_aborts_run :
    assign_to_chunks SONGDO_ORIGIN 500 [emptyRingFeature] [] = .error .zeroDiv := rfl

/-! ### Claim C1 -/

/-- A polyline that revisits its start point: the averaged tangent at the
middle vertex is zero, so the road mesher skips that vertex. -/
noncomputable def backtrackRoad : List (ℝ × ℝ) :=
  [(126.615, 37.355), (126.615, 37.356), (126.615, 37.355)]

theorem backtrack_proj :
    projectList SONGDO_ORIGIN backtrackRoad = [(0, 0), (0, 111), (0, 0)] := by
  unfold projectList backtrackRoad geo_to_local SONGDO_ORIGIN LAT_TO_METERS
  simp only [List.map_cons, List.map_nil]
  norm_num

theorem backtrack_tangent0 :
    roadTangentLen [((0 : ℝ), (0 : ℝ)), (0, 111), (0, 0)] 0 = 111 := by
  unfold roadTangentLen roadTangent
  norm_num [List.getD]
  exact sqrt_12321

theorem backtrack_tangent1 :
    roadTangentLen [((0 : ℝ), (0 : ℝ)), (0, 111), (0, 0)] 1 = 0 := by
  unfold roadTangentLen roadTangent
  norm_num [List.getD]

theorem backtrack_tangent2 :
    roadTangentLen [((0 : ℝ), (0 : ℝ)), (0, 111), (0, 0)] 2 = 111 := by
  unfold roadTangentLen roadTangent
  norm_num [List.getD]
  exact sqrt_12321

/-- Claim C1 fails on the code: on `backtrackRoad` the road mesher skips the
degenerate middle vertex but still emits triangle indices computed from the
*input* vertex index (`base = (i-1)*2`), producing the index list
`[2, 3, 4, 3, 5, 4]` against only 4 emitted vertices — indices 4 and 5 are out
of range. -/
theorem C1_road_mesh_index_out_of_range :
    (roadGenerateMesh SONGDO_ORIGIN backtrackRoad 6).vertices.length = 4 ∧
    (roadGenerateMesh SONGDO_ORIGIN backtrackRoad 6).indices = [2, 3, 4, 3, 5, 4] := by
  have hskip : ∀ (hw : ℝ) (st : RoadState),
      roadStep [((0 : ℝ), (0 : ℝ)), (0, 111), (0, 0)] hw st 1 = st := by
    intro hw st
    unfold roadStep
    rw [backtrack_tangent1, if_pos (by norm_num : (0 : ℝ) < 0.001)]
  have hstep0 : ∀ (hw : ℝ) (st : RoadState),
      (roadStep [((0 : ℝ), (0 : ℝ)), (0, 111), (0, 0)] hw st 0).vertices.length
          = st.vertices.length + 2 ∧
      (roadStep [((0 : ℝ), (0 : ℝ)), (0, 111), (0, 0)] hw st 0).indices = st.indices := by
    intro hw st
    unfold roadStep
    rw [backtrack_tangent0, if_neg (by norm_num : ¬ ((111 : ℝ) < 0.001))]
    simp
  have hstep2 : ∀ (hw : ℝ) (st : RoadState),
      (roadStep [((0 : ℝ), (0 : ℝ)), (0, 111), (0, 0)] hw st 2).vertices.length
          = st.vertices.length + 2 ∧
      (roadStep [((0 : ℝ), (0 : ℝ)), (0, 111), (0, 0)] hw st 2).indices
          = st.indices ++ [2, 3, 4, 3, 5, 4] := by
    intro hw st
    unfold roadStep
    rw [backtrack_tangent2, if_neg (by norm_num : ¬ ((111 : ℝ) < 0.001))]
    norm_num
  unfold roadGenerateMesh
  rw [backtrack_proj]
  rw [if_neg (by norm_num)]
  rw [show List.range ([((0 : ℝ), (0 : ℝ)), (0, 111), (0, 0)].length) = [0, 1, 2] by decide]
  simp only [List.foldl_cons, List.foldl_nil]
  rw [hskip]
  constructor
  · rw [(hstep2 _ _).1, (hstep0 _ _).1]
    rfl
  · rw [(hstep2 _ _).2, (hstep0 _ _).2]
    rfl

/-! ### Claim C5 -/

theorem pathLen_take_one (L : List (ℝ × ℝ)) : pathLen (L.take 1) = 0 := by
  cases L with
  | nil => simp [pathLen]
  | cons p rest => simp [pathLen]

theorem pathLen_take_succ :
    ∀ (L : List (ℝ × ℝ)) (k : Nat), 1 ≤ k → k < L.length →
      pathLen (L.take (k + 1))
        = pathLen (L.take k) + segLen (L.getD (k - 1) (0, 0)) (L.getD k (0, 0)) := by
  intro L
  induction L with
  | nil => intro k h1 hk; simp at hk
  | cons p rest ih =>
    intro k h1 hk
    match k, h1 with
    | 1, _ =>
      cases rest with
      | nil => simp at hk
      | cons q r2 => simp [pathLen, List.getD]
    | (k' + 2), _ =>
      cases rest with
      | nil => simp at hk
      | cons q r2 =>
        have hk2 : k' + 1 < (q :: r2).length := by
          simp at hk ⊢
          omega
        have hrec := ih (k' + 1) (by omega) hk2
        have htk : ∀ j : Nat, 1 ≤ j → (p :: q :: r2).take (j + 1) = p :: (q :: r2).take j := by
          intro j hj
          simp [List.take_succ_cons]
        rw [htk (k' + 2) (by omega), htk (k' + 1) (by omega)]
        have hhead : ∀ j : Nat, 1 ≤ j → pathLen (p :: (q :: r2).take j)
            = segLen p q + pathLen ((q :: r2).take j) := by
          intro j hj
          match j, hj with
          | (j' + 1), _ => simp [List.take_succ_cons, pathLen]
        rw [hhead (k' + 2) (by omega), hhead (k' + 1) (by omega), hrec]
        have hgd : ∀ m : Nat, (p :: q :: r2).getD (m + 1) (0, 0) = (q :: r2).getD m (0, 0) := by
          intro m
          simp [List.getD]
        rw [show k' + 2 - 1 = k' + 1 by omega]
        rw [show (k' + 1 : Nat) = k' + 1 by rfl]
        rw [hgd (k' + 1), hgd k']
        rw [show k' + 1 - 1 = k' by omega]
        ring

/-- A non-skipped iteration of the road loop: two vertices are appended whose
texcoords carry `v = accumulated_length / 10` computed before the accumulation,
and the accumulated length and indices are updated only for `i > 0`. -/
theorem roadStep_no_skip (L : List (ℝ × ℝ)) (hw : ℝ) (st : RoadState) (i : Nat)
    (h : ¬ roadTangentLen L i < 0.001) :
    ∃ a b : ℝ × ℝ × ℝ,
      roadStep L hw st i =
        ⟨st.vertices ++ [⟨a, (0, 1, 0), (0, st.acc / 10)⟩, ⟨b, (0, 1, 0), (1, st.acc / 10)⟩],
         if 0 < i then
           st.indices ++ [2 * (i - 1), 2 * (i - 1) + 1, 2 * (i - 1) + 2,
                          2 * (i - 1) + 1, 2 * (i - 1) + 3, 2 * (i - 1) + 2]
         else st.indices,
         if 0 < i then st.acc + segLen (L.getD (i - 1) (0, 0)) (L.getD i (0, 0)) else st.acc⟩ := by
  simp only [roadStep]
  simp only [h, if_false, ite_false]
  exact ⟨_, _, rfl⟩

/-- Invariant of the road loop when no vertex is skipped: after `k` iterations
the state holds `2k` vertices, the accumulated length of the first `k` input
vertices, and the pair emitted at input vertex `i` carries
`v = pathLen (L.take i) / 10` — the cumulative length up to the *previous*
vertex. -/
theorem roadFold_texcoords (L : List (ℝ × ℝ)) (hw : ℝ)
    (hns : ∀ j, j < L.length → ¬ roadTangentLen L j < 0.001) :
    ∀ k, k ≤ L.length →
      (((List.range k).foldl (roadStep L hw) ⟨[], [], 0⟩).vertices.length = 2 * k) ∧
      (((List.range k).foldl (roadStep L hw) ⟨[], [], 0⟩).acc = pathLen (L.take k)) ∧
      ∀ i, i < k →
        ((((List.range k).foldl (roadStep L hw) ⟨[], [], 0⟩).vertices.get? (2 * i)).map
            Vertex.texcoord = some (0, pathLen (L.take i) / 10)) ∧
        ((((List.range k).foldl (roadStep L hw) ⟨[], [], 0⟩).vertices.get? (2 * i + 1)).map
            Vertex.texcoord = some (1, pathLen (L.take i) / 10)) := by
  intro k
  induction k with
  | zero =>
    intro _
    refine ⟨rfl, by simp [pathLen], ?_⟩
    intro i hi
    omega
  | succ n ih =>
    intro hk
    obtain ⟨hlen, hacc, htex⟩ := ih (by omega)
    rw [List.range_succ]
    simp only [List.foldl_append, List.foldl_cons, List.foldl_nil]
    obtain ⟨a, b, hstep⟩ := roadStep_no_skip L hw
      ((List.range n).foldl (roadStep L hw) ⟨[], [], 0⟩) n (hns n (by omega))
    rw [hstep]
    refine ⟨?_, ?_, ?_⟩
    · simp [hlen]
      omega
    · dsimp only
      by_cases hn : 0 < n
      · rw [if_pos hn, hacc, pathLen_take_succ L n (by omega) (by omega)]
      · have hn0 : n = 0 := by omega
        rw [if_neg hn, hacc]
        subst hn0
        rw [pathLen_take_one]
        simp [pathLen]
    · intro i hi
      by_cases hilt : i < n
      · have h1 : 2 * i < ((List.range n).foldl (roadStep L hw) ⟨[], [], 0⟩).vertices.length := by
          omega
        have h2 : 2 * i + 1 <
            ((List.range n).foldl (roadStep L hw) ⟨[], [], 0⟩).vertices.length := by
          omega
        rw [List.get?_append h1, List.get?_append h2]
        exact htex i hilt
      · have hieq : i = n := by omega
        subst hieq
        have h1 : ((List.range i).foldl (roadStep L hw) ⟨[], [], 0⟩).vertices.length ≤ 2 * i := by
          omega
        have h2 : ((List.range i).foldl (roadStep L hw) ⟨[], [], 0⟩).vertices.length ≤
            2 * i + 1 := by
          omega
        rw [List.get?_append_right h1, List.get?_append_right h2, hlen]
        constructor
        · rw [show 2 * i - 2 * i = 0 by omega]
          simp [hacc]
        · rw [show 2 * i + 1 - 2 * i = 1 by omega]
          simp [hacc]

/-- A two-vertex polyline 111 m long, along the origin meridian. -/
noncomputable def twoPointRoad : List (ℝ × ℝ) :=
  [(126.615, 37.355), (126.615, 37.356)]

theorem twoPoint_proj :
    projectList SONGDO_ORIGIN twoPointRoad = [(0, 0), (0, 111)] := by
  unfold projectList twoPointRoad geo_to_local SONGDO_ORIGIN LAT_TO_METERS
  simp only [List.map_cons, List.map_nil]
  norm_num

theorem twoPoint_tangent0 :
    roadTangentLen [((0 : ℝ), (0 : ℝ)), (0, 111)] 0 = 111 := by
  unfold roadTangentLen roadTangent
  norm_num [List.getD]
  exact sqrt_12321

theorem twoPoint_tangent1 :
    roadTangentLen [((0 : ℝ), (0 : ℝ)), (0, 111)] 1 = 111 := by
  unfold roadTangentLen roadTangent
  norm_num [List.getD]
  exact sqrt_12321

/-- Claim C5 fails on the code: on the 111 m two-vertex polyline, the pair
emitted at the second input vertex carries `v = 0`, not the cumulative length
(111 m) divided by 10, because the source computes `v` from
`accumulated_length` *before* accumulating the segment that ends at the
current vertex. -/
theorem C5_second_vertex_texcoord_is_zero :
    (((roadGenerateMesh SONGDO_ORIGIN twoPointRoad 4).vertices.get? 2).map Vertex.texcoord
        = some (0, 0)) ∧
    pathLen (projectList SONGDO_ORIGIN twoPointRoad) / 10 ≠ 0 := by
  constructor
  · obtain ⟨a0, b0, hstep0⟩ := roadStep_no_skip [((0 : ℝ), (0 : ℝ)), (0, 111)] (4 / 2)
      ⟨[], [], 0⟩ 0 (by rw [twoPoint_tangent0]; norm_num)
    unfold roadGenerateMesh
    rw [twoPoint_proj]
    rw [if_neg (by norm_num)]
    rw [show List.range ([((0 : ℝ), (0 : ℝ)), (0, 111)].length) = [0, 1] by decide]
    simp only [List.foldl_cons, List.foldl_nil]
    rw [hstep0]
    obtain ⟨a1, b1, hstep1⟩ := roadStep_no_skip [((0 : ℝ), (0 : ℝ)), (0, 111)] (4 / 2)
      ⟨[] ++ [⟨a0, (0, 1, 0), (0, (0 : ℝ) / 10)⟩, ⟨b0, (0, 1, 0), (1, (0 : ℝ) / 10)⟩],
       if 0 < 0 then [] ++ [2 * (0 - 1), 2 * (0 - 1) + 1, 2 * (0 - 1) + 2,
                            2 * (0 - 1) + 1, 2 * (0 - 1) + 3, 2 * (0 - 1) + 2] else [],
       if 0 < 0 then
         0 + segLen ([((0 : ℝ), (0 : ℝ)), (0, 111)].getD (0 - 1) (0, 0))
           ([((0 : ℝ), (0 : ℝ)), (0, 111)].getD 0 (0, 0))
       else 0⟩ 1 (by rw [twoPoint_tangent1]; norm_num)
    rw [hstep1]
    norm_num [List.get?]
  · rw [twoPoint_proj]
    simp only [pathLen, segLen]
    norm_num

/-- Claim C5, amended: for every polyline none of whose tangents is
degenerate (all tangent lengths at least `0.001`), the pair of vertices
emitted at input vertex `p_i` carries texcoords `(0, v)` on the left and
`(1, v)` on the right, where `v` is the cumulative Euclidean length of the
projected polyline from the first vertex up to `p_{i-1}` — the vertex *before*
`p_i` — divided by 10 (for `i = 0`, `v = 0`). -/
theorem C5_road_texcoord_cumlength_lags_one (o : GeoOrigin) (coords : List (ℝ × ℝ))
    (width : ℝ) (i : Nat)
    (h2 : 2 ≤ (projectList o coords).length)
    (hi : i < (projectList o coords).length)
    (hns : ∀ j, j < (projectList o coords).length →
      ¬ roadTangentLen (projectList o coords) j < 0.001) :
    (((roadGenerateMesh o coords width).vertices.get? (2 * i)).map Vertex.texcoord
        = some (0, pathLen ((projectList o coords).take i) / 10)) ∧
    (((roadGenerateMesh o coords width).vertices.get? (2 * i + 1)).map Vertex.texcoord
        = some (1, pathLen ((projectList o coords).take i) / 10)) := by
  have hfold := roadFold_texcoords (projectList o coords) (width / 2) hns
    (projectList o coords).length le_rfl
  have hres := hfold.2.2 i hi
  unfold roadGenerateMesh
  rw [if_neg (by omega)]
  exact hres

/-- A three-vertex collinear polyline (two 111 m segments) on the origin
meridian. -/
noncomputable def threePointRoad : List (ℝ × ℝ) :=
  [(126.615, 37.355), (126.615, 37.356), (126.615, 37.357)]

theorem threePoint_proj :
    projectList SONGDO_ORIGIN threePointRoad = [(0, 0), (0, 111), (0, 222)] := by
  unfold projectList threePointRoad geo_to_local SONGDO_ORIGIN LAT_TO_METERS
  simp only [List.map_cons, List.map_nil]
  norm_num

theorem sqrt_49284 : Real.sqrt 49284 = 222 := by
  rw [show (49284 : ℝ) = 222 ^ 2 by norm_num, Real.sqrt_sq (by norm_num)]

theorem threePoint_tangents :
    ∀ j, j < ([((0 : ℝ), (0 : ℝ)), (0, 111), (0, 222)] : List (ℝ × ℝ)).length →
      ¬ roadTangentLen [((0 : ℝ), (0 : ℝ)), (0, 111), (0, 222)] j < 0.001 := by
  intro j hj
  simp only [List.length_cons, List.length_nil] at hj
  interval_cases j
  · unfold roadTangentLen roadTangent
    norm_num [List.getD]
    rw [sqrt_12321]
    norm_num
  · unfold roadTangentLen roadTangent
    norm_num [List.getD]
    rw [sqrt_49284]
    norm_num
  · unfold roadTangentLen roadTangent
    norm_num [List.getD]
    rw [sqrt_12321]
    norm_num

/-- Witness for the amended C5: the three-point collinear road satisfies the
no-degenerate-tangent hypothesis, and the pair emitted at its second input
vertex carries `v` equal to the cumulative length of the first segment only,
divided by 10. -/
theorem C5_road_texcoord_cumlength_lags_one_witness :
    (((roadGenerateMesh SONGDO_ORIGIN threePointRoad 4).vertices.get? 2).map Vertex.texcoord
        = some (0, pathLen ((projectList SONGDO_ORIGIN threePointRoad).take 1) / 10)) ∧
    (((roadGenerateMesh SONGDO_ORIGIN threePointRoad 4).vertices.get? 3).map Vertex.texcoord
        = some (1, pathLen ((projectList SONGDO_ORIGIN threePointRoad).take 1) / 10)) := by
  have h := C5_road_texcoord_cumlength_lags_one SONGDO_ORIGIN threePointRoad 4 1
    (by rw [threePoint_proj]; norm_num)
    (by rw [threePoint_proj]; norm_num)
    (by rw [threePoint_proj]; exact threePoint_tangents)
  exact h

/-! ### Partitioner characterization -/

/-- The chunk a building feature is assigned to: the cell containing the
arithmetic mean of its projected outer ring. -/
noncomputable def buildingChunk (o : GeoOrigin) (S : ℝ) (f : BuildingFeature) : ℤ × ℤ :=
  let L := projectList o (f.coordinates.headD [])
  get_chunk_for_point S (ringCenter L).1 (ringCenter L).2

/-- The entry dictionary built for a building feature. -/
noncomputable def buildingEntryOf (o : GeoOrigin) (f : BuildingFeature) : BuildingEntry :=
  let ring := f.coordinates.headD []
  let L := projectList o ring
  ⟨f.fid, ring, L, f.height.getD 10.0, f.building_type.getD "yes", ringCenter L⟩

/-- The map update a single building-loop iteration performs. -/
noncomputable def buildingUpdate (o : GeoOrigin) (S : ℝ) (f : BuildingFeature)
    (m : ChunkMap) : ChunkMap :=
  fun κ' =>
    if κ' = buildingChunk o S f then
      { m (buildingChunk o S f) with
        buildings := (m (buildingChunk o S f)).buildings ++ [buildingEntryOf o f] }
    else m κ'

theorem assignBuildingsLoop_cons (o : GeoOrigin) (S : ℝ) (f : BuildingFeature)
    (rest : List BuildingFeature) (m : ChunkMap) (r : List (ℝ × ℝ)) (rs' : List (List (ℝ × ℝ)))
    (hco : f.coordinates = r :: rs') (hr : r ≠ []) :
    assignBuildingsLoop o S (f :: rest) m
      = assignBuildingsLoop o S rest (buildingUpdate o S f m) := by
  have hlen : ¬ (projectList o r).length = 0 := by
    simp [projectList]
    exact hr
  simp only [assignBuildingsLoop, hco, List.head?_cons]
  rw [if_neg hlen]
  congr 1
  funext κ'
  simp only [buildingUpdate, buildingChunk, buildingEntryOf, hco, List.headD_cons]

theorem assignBuildingsLoop_ok (o : GeoOrigin) (S : ℝ) :
    ∀ (bs : List BuildingFeature) (m : ChunkMap),
      (∀ f ∈ bs, f.coordinates ≠ [] ∧ f.coordinates.headD [] ≠ []) →
      ∃ m', assignBuildingsLoop o S bs m = .ok m' ∧
        ∀ κ, (m' κ).buildings
              = (m κ).buildings
                ++ ((bs.filter fun f => buildingChunk o S f = κ).map (buildingEntryOf o))
          ∧ (m' κ).roads = (m κ).roads
          ∧ (m' κ).building_meshes = (m κ).building_meshes
          ∧ (m' κ).road_meshes = (m κ).road_meshes := by
  intro bs
  induction bs with
  | nil =>
    intro m _
    exact ⟨m, rfl, fun κ => ⟨by simp, rfl, rfl, rfl⟩⟩
  | cons f rest ih =>
    intro m hwf
    obtain ⟨hne, hring⟩ := hwf f (List.mem_cons_self f rest)
    cases hco : f.coordinates with
    | nil => exact absurd hco hne
    | cons r rs' =>
      have hr : r ≠ [] := by
        rw [hco] at hring
        simpa using hring
      rw [assignBuildingsLoop_cons o S f rest m r rs' hco hr]
      obtain ⟨m', hok, hchar⟩ := ih (buildingUpdate o S f m)
        (fun g hg => hwf g (List.mem_cons_of_mem f hg))
      refine ⟨m', hok, fun κ => ?_⟩
      obtain ⟨hb, hrd, hbm, hrm⟩ := hchar κ
      by_cases hκ : buildingChunk o S f = κ
      · refine ⟨?_, ?_, ?_, ?_⟩
        · rw [hb]
          simp only [buildingUpdate, hκ, if_pos rfl]
          rw [List.filter_cons]
          simp [hκ, List.append_assoc]
        · rw [hrd]
          simp [buildingUpdate, hκ]
        · rw [hbm]
          simp [buildingUpdate, hκ]
        · rw [hrm]
          simp [buildingUpdate, hκ]
      · have hκ' : ¬ κ = buildingChunk o S f := fun h => hκ h.symm
        refine ⟨?_, ?_, ?_, ?_⟩
        · rw [hb]
          simp only [buildingUpdate, if_neg hκ']
          rw [List.filter_cons]
          simp [hκ]
        · rw [hrd]
          simp [buildingUpdate, hκ']
        · rw [hbm]
          simp [buildingUpdate, hκ']
        · rw [hrm]
          simp [buildingUpdate, hκ']

theorem assignRoadsLoop_fields (o : GeoOrigin) (S : ℝ) :
    ∀ (rs : List RoadFeature) (m : ChunkMap) (κ : ℤ × ℤ),
      ((assignRoadsLoop o S rs m κ).buildings = (m κ).buildings) ∧
      ((assignRoadsLoop o S rs m κ).building_meshes = (m κ).building_meshes) ∧
      ((assignRoadsLoop o S rs m κ).road_meshes = (m κ).road_meshes) ∧
      (∀ e ∈ (assignRoadsLoop o S rs m κ).roads, e ∈ (m κ).roads ∨ e.lanes = none) := by
  intro rs
  induction rs with
  | nil =>
    intro m κ
    exact ⟨rfl, rfl, rfl, fun e he => .inl he⟩
  | cons f rest ih =>
    intro m κ
    simp only [assignRoadsLoop]
    obtain ⟨hb, hbm, hrm, hr⟩ := ih
      (fun κ' =>
        if κ' ∈ (projectList o f.coordinates).map fun p => get_chunk_for_point S p.1 p.2 then
          { m κ' with roads := (m κ').roads ++
              [⟨f.fid, f.coordinates, projectList o f.coordinates,
                f.highway_type.getD "residential", f.width.getD 6.0, none⟩] }
        else m κ') κ
    refine ⟨?_, ?_, ?_, ?_⟩
    · rw [hb]
      by_cases hmem : κ ∈ (projectList o f.coordinates).map fun p => get_chunk_for_point S p.1 p.2 <;>
        simp [hmem]
    · rw [hbm]
      by_cases hmem : κ ∈ (projectList o f.coordinates).map fun p => get_chunk_for_point S p.1 p.2 <;>
        simp [hmem]
    · rw [hrm]
      by_cases hmem : κ ∈ (projectList o f.coordinates).map fun p => get_chunk_for_point S p.1 p.2 <;>
        simp [hmem]
    · intro e he
      rcases hr e he with h' | h'
      · by_cases hmem : κ ∈ (projectList o f.coordinates).map fun p => get_chunk_for_point S p.1 p.2
        · rw [if_pos hmem] at h'
          simp only [List.mem_append, List.mem_singleton] at h'
          rcases h' with h'' | h''
          · exact .inl h''
          · subst h''
            exact .inr rfl
        · rw [if_neg hmem] at h'
          exact .inl h'
      · exact .inr h'

theorem assignBuildingsLoop_roads (o : GeoOrigin) (S : ℝ) :
    ∀ (bs : List BuildingFeature) (m m' : ChunkMap),
      assignBuildingsLoop o S bs m = .ok m' → ∀ κ, (m' κ).roads = (m κ).roads := by
  intro bs
  induction bs with
  | nil =>
    intro m m' h κ
    cases h
    rfl
  | cons f rest ih =>
    intro m m' h κ
    simp only [assignBuildingsLoop] at h
    cases hh : f.coordinates.head? with
    | none =>
      rw [hh] at h
      simp at h
    | some ring =>
      simp only [hh] at h
      by_cases hz : (projectList o ring).length = 0
      · rw [if_pos hz] at h
        simp at h
      · rw [if_neg hz] at h
        rw [ih _ m' h κ]
        split
        · rename_i hκ
          rw [hκ]
        · rfl

/-! ### Claim C7 -/

theorem floor_div500_eq_zero (x : ℝ) (h0 : 0 ≤ x) (h1 : x < 500) :
    Int.floor (x / 500) = 0 := by
  rw [Int.floor_eq_zero_iff, Set.mem_Ico]
  constructor
  · positivity
  · rw [div_lt_one (by norm_num)]
    exact h1

/-- Claim C7: every building feature is assigned by the partitioner to exactly
one chunk, the cell `(⌊mean_x / S⌋, ⌊mean_z / S⌋)` of the arithmetic mean of
its projected ring: chunk `κ` holds exactly the (entries of the) features
whose centroid cell is `κ`, in input order, and no other chunk holds them. -/
theorem C7_building_in_exactly_one_chunk (o : GeoOrigin) (S : ℝ)
    (bs : List BuildingFeature) (rs : List RoadFeature)
    (hwf : ∀ f ∈ bs, f.coordinates ≠ [] ∧ f.coordinates.headD [] ≠ []) :
    ∃ m, assign_to_chunks o S bs rs = .ok m ∧
      (∀ f : BuildingFeature, buildingChunk o S f
          = (Int.floor ((ringCenter (projectList o (f.coordinates.headD []))).1 / S),
             Int.floor ((ringCenter (projectList o (f.coordinates.headD []))).2 / S))) ∧
      ∀ κ, (m κ).buildings
          = ((bs.filter fun f => buildingChunk o S f = κ).map (buildingEntryOf o)) := by
  obtain ⟨m0, hok, hchar⟩ := assignBuildingsLoop_ok o S bs (fun κ => emptyChunk S κ) hwf
  refine ⟨assignRoadsLoop o S rs m0, ?_, fun f => rfl, fun κ => ?_⟩
  · unfold assign_to_chunks
    rw [hok]
    rfl
  · rw [(assignRoadsLoop_fields o S rs m0 κ).1, (hchar κ).1]
    simp [emptyChunk]

/-- The straddle scenario's ring: a 1.8 m wide footprint crossing the
`x = 500` chunk boundary, centroid at `(499.9, 250)`. -/
noncomputable def straddleRing : List (ℝ × ℝ) :=
  [(126.615 + 499 / LON_TO_METERS, 37.355 + 250 / 111000),
   (126.615 + 500.8 / LON_TO_METERS, 37.355 + 250 / 111000)]

/-- The straddle scenario's building feature. -/
noncomputable def straddleBuilding : BuildingFeature := ⟨none, [straddleRing], some 10, none⟩

theorem straddle_proj :
    projectList SONGDO_ORIGIN straddleRing = [(499, 250), (500.8, 250)] := by
  have hK := LON_TO_METERS_pos.ne'
  unfold projectList straddleRing geo_to_local SONGDO_ORIGIN LAT_TO_METERS
  simp only [List.map_cons, List.map_nil]
  norm_num
  constructor
  · field_simp
  · field_simp
    ring

theorem straddle_center :
    ringCenter [((499 : ℝ), (250 : ℝ)), (500.8, 250)] = (499.9, 250) := by
  unfold ringCenter
  norm_num [List.map_cons, List.map_nil, List.sum_cons, List.sum_nil]

theorem straddle_chunk : buildingChunk SONGDO_ORIGIN 500 straddleBuilding = (0, 0) := by
  simp only [buildingChunk]
  rw [show straddleBuilding.coordinates.headD [] = straddleRing from rfl]
  rw [straddle_proj, straddle_center]
  show (Int.floor ((499.9 : ℝ) / 500), Int.floor ((250 : ℝ) / 500)) = (0, 0)
  rw [floor_div500_eq_zero 499.9 (by norm_num) (by norm_num),
      floor_div500_eq_zero 250 (by norm_num) (by norm_num)]

/-- Witness for C7: the straddling building with centroid `(499.9, 250)` and
`S = 500` lands in chunk `(0, 0)` and in no other chunk (here `(1, 0)`). -/
theorem C7_building_in_exactly_one_chunk_witness :
    ∃ m, assign_to_chunks SONGDO_ORIGIN 500 [straddleBuilding] [] = .ok m ∧
      (m (0, 0)).buildings = [buildingEntryOf SONGDO_ORIGIN straddleBuilding] ∧
      (m (1, 0)).buildings = [] := by
  obtain ⟨m, hok, _, hchar⟩ := C7_building_in_exactly_one_chunk SONGDO_ORIGIN 500
    [straddleBuilding] []
    (by
      intro f hf
      simp only [List.mem_singleton] at hf
      subst hf
      constructor
      · simp [straddleBuilding]
      · simp [straddleBuilding, straddleRing])
  refine ⟨m, hok, ?_, ?_⟩
  · rw [hchar (0, 0), List.filter_cons]
    simp [straddle_chunk]
  · rw [hchar (1, 0), List.filter_cons]
    simp [straddle_chunk, Prod.ext_iff]

/-! ### Claim C4 -/

/-- A building feature whose ring has only two distinct vertices: it is
assigned by the partitioner, but its mesh is empty. -/
noncomputable def degenerateBuilding : BuildingFeature := ⟨none, [twoPointRoad], some 7, none⟩

/-- A valid (collinear, but three-vertex) building feature in the same
chunk. -/
noncomputable def triangleBuilding : BuildingFeature := ⟨none, [threePointRoad], some 9, none⟩

theorem twoPoint_center : ringCenter [((0 : ℝ), (0 : ℝ)), (0, 111)] = (0, 55.5) := by
  unfold ringCenter
  norm_num [List.map_cons, List.map_nil, List.sum_cons, List.sum_nil]

theorem threePoint_center :
    ringCenter [((0 : ℝ), (0 : ℝ)), (0, 111), (0, 222)] = (0, 111) := by
  unfold ringCenter
  norm_num [List.map_cons, List.map_nil, List.sum_cons, List.sum_nil]

theorem degenerate_chunk : buildingChunk SONGDO_ORIGIN 500 degenerateBuilding = (0, 0) := by
  simp only [buildingChunk]
  rw [show degenerateBuilding.coordinates.headD [] = twoPointRoad from rfl]
  rw [twoPoint_proj, twoPoint_center]
  show (Int.floor ((0 : ℝ) / 500), Int.floor ((55.5 : ℝ) / 500)) = (0, 0)
  rw [floor_div500_eq_zero 0 (by norm_num) (by norm_num),
      floor_div500_eq_zero 55.5 (by norm_num) (by norm_num)]

theorem triangle_chunk : buildingChunk SONGDO_ORIGIN 500 triangleBuilding = (0, 0) := by
  simp only [buildingChunk]
  rw [show triangleBuilding.coordinates.headD [] = threePointRoad from rfl]
  rw [threePoint_proj, threePoint_center]
  show (Int.floor ((0 : ℝ) / 500), Int.floor ((111 : ℝ) / 500)) = (0, 0)
  rw [floor_div500_eq_zero 0 (by norm_num) (by norm_num),
      floor_div500_eq_zero 111 (by norm_num) (by norm_num)]

theorem twoPoint_dropClosing :
    dropClosing [((0 : ℝ), (0 : ℝ)), (0, 111)] = [((0 : ℝ), (0 : ℝ)), (0, 111)] := by
  unfold dropClosing
  rw [if_neg]
  intro hcl
  have h2 := congrArg Prod.snd hcl.2
  norm_num [List.getD] at h2

theorem threePoint_dropClosing :
    dropClosing [((0 : ℝ), (0 : ℝ)), (0, 111), (0, 222)]
      = [((0 : ℝ), (0 : ℝ)), (0, 111), (0, 222)] := by
  unfold dropClosing
  rw [if_neg]
  intro hcl
  have h2 := congrArg Prod.snd hcl.2
  norm_num [List.getD] at h2

theorem degenerate_mesh_empty :
    buildingGenerateMesh SONGDO_ORIGIN twoPointRoad 7 = ⟨[], []⟩ := by
  unfold buildingGenerateMesh
  rw [twoPoint_proj, twoPoint_dropClosing]
  rw [if_pos (by norm_num)]

theorem triangle_mesh_nonempty :
    0 < (buildingGenerateMesh SONGDO_ORIGIN threePointRoad 9).vertices.length := by
  have h3 : 3 ≤ (dropClosing (projectList SONGDO_ORIGIN threePointRoad)).length := by
    rw [threePoint_proj, threePoint_dropClosing]
    norm_num
  have hc := (buildingGenerateMesh_counts SONGDO_ORIGIN threePointRoad 9 h3).1
  rw [hc]
  rw [threePoint_proj, threePoint_dropClosing]
  simp only [List.length_cons, List.length_nil]
  omega

/-- Claim C4 fails on the code: in a chunk holding a degenerate building
(two-vertex ring, empty mesh, skipped by `generate_chunk_meshes`) followed by
a valid building, the building list has 2 entries but the building-mesh list
has only 1, so they cannot correspond positionally — and `write_chunk_binary`,
which pairs `building_meshes[i]` with `buildings[i]`, writes the valid
building's mesh with the degenerate building's instance data. -/
theorem C4_building_and_mesh_lists_misalign :
    ∃ m, assign_to_chunks SONGDO_ORIGIN 500 [degenerateBuilding, triangleBuilding] []
        = .ok m ∧
      (generate_chunk_meshes SONGDO_ORIGIN (m (0, 0))).buildings.length = 2 ∧
      (generate_chunk_meshes SONGDO_ORIGIN (m (0, 0))).building_meshes.length = 1 := by
  obtain ⟨m0, hok, hchar⟩ := assignBuildingsLoop_ok SONGDO_ORIGIN 500
    [degenerateBuilding, triangleBuilding] (fun κ => emptyChunk 500 κ)
    (by
      intro f hf
      simp only [List.mem_cons, List.mem_singleton] at hf
      rcases hf with h | h | h
      · subst h
        exact ⟨by simp [degenerateBuilding], by simp [degenerateBuilding, twoPointRoad]⟩
      · subst h
        exact ⟨by simp [triangleBuilding], by simp [triangleBuilding, threePointRoad]⟩
      · exact absurd h (by simp))
  obtain ⟨hb, hrd, hbm, hrm⟩ := hchar (0, 0)
  have hbuild : (m0 (0, 0)).buildings
      = [buildingEntryOf SONGDO_ORIGIN degenerateBuilding,
         buildingEntryOf SONGDO_ORIGIN triangleBuilding] := by
    rw [hb, List.filter_cons, List.filter_cons]
    simp [degenerate_chunk, triangle_chunk, emptyChunk]
  have hbm0 : (m0 (0, 0)).building_meshes = [] := by
    rw [hbm]
    rfl
  refine ⟨m0, ?_, ?_, ?_⟩
  · unfold assign_to_chunks
    rw [hok]
    rfl
  · have hkeep : (generate_chunk_meshes SONGDO_ORIGIN (m0 (0, 0))).buildings
        = (m0 (0, 0)).buildings := rfl
    rw [hkeep, hbuild]
    rfl
  · have hgen : (generate_chunk_meshes SONGDO_ORIGIN (m0 (0, 0))).building_meshes
        = (m0 (0, 0)).buildings.foldl
            (fun acc b => appendIfNonempty acc (buildingGenerateMesh SONGDO_ORIGIN b.coords b.height))
            (m0 (0, 0)).building_meshes := rfl
    rw [hgen, hbuild, hbm0]
    simp only [List.foldl_cons, List.foldl_nil]
    have hcA : (buildingEntryOf SONGDO_ORIGIN degenerateBuilding).coords = twoPointRoad := rfl
    have hhA : (buildingEntryOf SONGDO_ORIGIN degenerateBuilding).height = 7 := rfl
    have hcB : (buildingEntryOf SONGDO_ORIGIN triangleBuilding).coords = threePointRoad := rfl
    have hhB : (buildingEntryOf SONGDO_ORIGIN triangleBuilding).height = 9 := rfl
    rw [hcA, hhA, hcB, hhB]
    rw [show appendIfNonempty [] (buildingGenerateMesh SONGDO_ORIGIN twoPointRoad 7) = [] by
      unfold appendIfNonempty
      rw [degenerate_mesh_empty]
      rfl]
    rw [show appendIfNonempty [] (buildingGenerateMesh SONGDO_ORIGIN threePointRoad 9)
        = [] ++ [buildingGenerateMesh SONGDO_ORIGIN threePointRoad 9] by
      unfold appendIfNonempty
      rw [if_pos triangle_mesh_nonempty]]
    rfl

/-! ### Claim C10 -/

/-- Claim C10: every road entry the partitioner builds carries no `lanes` key,
so the serializer's `road.get("lanes", 2)` always writes the default 2 as the
`lanes` byte at record offset 1 — whatever `lanes` values the input road
features carry. -/
theorem C10_lanes_byte_always_two (o : GeoOrigin) (S : ℝ) (bs : List BuildingFeature)
    (rs : List RoadFeature) (m : ChunkMap)
    (h : assign_to_chunks o S bs rs = .ok m) (κ : ℤ × ℤ) :
    ∀ e ∈ (m κ).roads, e.lanes = none ∧
      ∀ mesh : Mesh, (roadRecordBytes e mesh).get? 1 = some (.k 2) := by
  unfold assign_to_chunks at h
  cases hb : assignBuildingsLoop o S bs (fun κ => emptyChunk S κ) with
  | error err =>
    rw [hb] at h
    simp [Except.map] at h
  | ok m0 =>
    rw [hb] at h
    simp only [Except.map] at h
    have hm : assignRoadsLoop o S rs m0 = m := by
      injection h
    subst hm
    intro e he
    have hroads0 : (m0 κ).roads = [] := by
      rw [assignBuildingsLoop_roads o S bs (fun κ => emptyChunk S κ) m0 hb κ]
      rfl
    have hf := (assignRoadsLoop_fields o S rs m0 κ).2.2.2 e he
    rcases hf with h' | h'
    · rw [hroads0] at h'
      simp at h'
    · refine ⟨h', fun mesh => ?_⟩
      unfold roadRecordBytes packBBfI u8
      rw [h']
      rfl

/-- A road feature that *does* carry a `lanes` attribute (4). -/
noncomputable def lanesRoadFeature : RoadFeature :=
  ⟨none, twoPointRoad, some "residential", some 6, some 4⟩

/-- The chunk map produced for that single road. -/
noncomputable def lanesRoadMap : ChunkMap :=
  assignRoadsLoop SONGDO_ORIGIN 500 [lanesRoadFeature] (fun κ => emptyChunk 500 κ)

/-- Witness for C10: the single road with input `lanes = 4` lands in chunk
`(0, 0)`, its entry carries no `lanes` key, and its serialized record's byte
at offset 1 is 2. -/
theorem C10_lanes_byte_always_two_witness :
    assign_to_chunks SONGDO_ORIGIN 500 [] [lanesRoadFeature] = .ok lanesRoadMap ∧
    (lanesRoadMap (0, 0)).roads ≠ [] ∧
    ∀ e ∈ (lanesRoadMap (0, 0)).roads, e.lanes = none ∧
      ∀ mesh : Mesh, (roadRecordBytes e mesh).get? 1 = some (.k 2) := by
  have hok : assign_to_chunks SONGDO_ORIGIN 500 [] [lanesRoadFeature] = .ok lanesRoadMap := rfl
  refine ⟨hok, ?_,
    C10_lanes_byte_always_two SONGDO_ORIGIN 500 [] [lanesRoadFeature] lanesRoadMap hok (0, 0)⟩
  have hmem : ((0 : ℤ), (0 : ℤ)) ∈ (projectList SONGDO_ORIGIN lanesRoadFeature.coordinates).map
      fun p => get_chunk_for_point 500 p.1 p.2 := by
    rw [show lanesRoadFeature.coordinates = twoPointRoad from rfl, twoPoint_proj]
    simp only [List.map_cons, List.map_nil]
    have h00 : get_chunk_for_point 500 ((0 : ℝ), (0 : ℝ)).1 ((0 : ℝ), (0 : ℝ)).2
        = ((0 : ℤ), (0 : ℤ)) := by
      show (Int.floor ((0 : ℝ) / 500), Int.floor ((0 : ℝ) / 500)) = (0, 0)
      rw [floor_div500_eq_zero 0 (by norm_num) (by norm_num)]
    rw [h00]
    exact List.mem_cons_self _ _
  show ((assignRoadsLoop SONGDO_ORIGIN 500 [lanesRoadFeature]
      (fun κ => emptyChunk 500 κ)) (0, 0)).roads ≠ []
  simp only [assignRoadsLoop]
  rw [if_pos hmem]
  simp

end Songdo
